import Mathlib

set_option maxRecDepth 8000

namespace ScrumSpec

/-! Shallow embedding of the aiscrummaster64 meeting-agent pipeline
(src/main.py, src/bot_service.py, src/bot.py).

Python strings are modelled as lists of Unicode code points (`Str`).
External collaborators (the OpenRouter HTTP API, the Selenium DOM, the
Telegram channel) are modelled as explicit environment values passed to
each operation; an operation's effect on a session is modelled as a pure
state transformer.  Python's `str.upper` and `str.lower` are modelled for
the ASCII and Cyrillic ranges actually used by the program; `\w` of the
participant regex is modelled as ASCII alphanumerics, underscore and the
Cyrillic block. -/

abbrev Str := List Char

def str (s : String) : Str := s.data

/-! Python string primitives used by the source. -/

def pyIsSpace (c : Char) : Bool :=
  c == ' ' || c == '\t' || c == '\n' || c == '\r' || c == '\x0b' || c == '\x0c'

def lstripWS (s : Str) : Str := s.dropWhile pyIsSpace

def pyStrip (s : Str) : Str := ((lstripWS s).reverse.dropWhile pyIsSpace).reverse

def pyUpperChar (c : Char) : Char :=
  if 'a' ≤ c ∧ c ≤ 'z' then Char.ofNat (c.toNat - 32)
  else if 0x430 ≤ c.toNat ∧ c.toNat ≤ 0x44F then Char.ofNat (c.toNat - 32)
  else if c.toNat = 0x451 then Char.ofNat 0x401
  else c

def pyLowerChar (c : Char) : Char :=
  if 'A' ≤ c ∧ c ≤ 'Z' then Char.ofNat (c.toNat + 32)
  else if 0x410 ≤ c.toNat ∧ c.toNat ≤ 0x42F then Char.ofNat (c.toNat + 32)
  else if c.toNat = 0x401 then Char.ofNat 0x451
  else c

def pyUpper (s : Str) : Str := s.map pyUpperChar

def pyLower (s : Str) : Str := s.map pyLowerChar

/-- isPre p s models Python str.startswith: p is a prefix of s. -/
def isPre : Str → Str → Bool
  | [], _ => true
  | _ :: _, [] => false
  | a :: p, b :: s => if a = b then isPre p s else false

/-- occursInB needle hay models Python substring containment (needle in hay). -/
def occursInB (needle : Str) : Str → Bool
  | [] => isPre needle []
  | c :: t => isPre needle (c :: t) || occursInB needle t

/-- findIdx needle hay models Python str.find: index of the first occurrence. -/
def findIdx (needle : Str) : Str → Option Nat
  | [] => if isPre needle [] then some 0 else none
  | c :: t =>
    if isPre needle (c :: t) then some 0
    else (findIdx needle t).map (fun i => i + 1)

/-- splitChar sep s models Python str.split(sep) for a one-character separator. -/
def splitChar (sep : Char) : Str → List Str
  | [] => [[]]
  | c :: t =>
    if c = sep then [] :: splitChar sep t
    else
      match splitChar sep t with
      | [] => [[c]]
      | l :: ls => (c :: l) :: ls

def splitLines (s : Str) : List Str := splitChar '\n' s

/-- beforeColon s = s.split(":", 1)[0]. -/
def beforeColon : Str → Str
  | [] => []
  | c :: t => if c = ':' then [] else c :: beforeColon t

/-- afterColon s = s.split(":", 1)[1] (empty when no colon; callers guard). -/
def afterColon : Str → Str
  | [] => []
  | c :: t => if c = ':' then t else afterColon t

/-- removeStarStar models one pass of Python s.replace(<double star>, <empty>),
scanning left to right over non-overlapping occurrences. -/
def removeStarStar : Str → Str
  | [] => []
  | [c] => [c]
  | c :: d :: t =>
    if c = '*' ∧ d = '*' then removeStarStar t
    else c :: removeStarStar (d :: t)

/-- removeChar ch models Python s.replace(ch, <empty>) for a single character. -/
def removeChar (ch : Char) (s : Str) : Str := s.filter (fun c => ¬ c = ch)

/-- removeVoprosTag models line.replace(<VOPROS colon tag>, <empty>):
every occurrence of the 7-character Russian tag is deleted. -/
def removeVoprosTag : Str → Str
  | 'В' :: 'О' :: 'П' :: 'Р' :: 'О' :: 'С' :: ':' :: t => removeVoprosTag t
  | c :: t => c :: removeVoprosTag t
  | [] => []

/-- pyLastN n l models the Python slice l[-n:]. -/
def pyLastN (n : Nat) (l : List α) : List α := l.drop (l.length - n)

/-- isWordChar approximates the regex class backslash-w of Python re
(ASCII alphanumerics, underscore, and the Cyrillic block used here). -/
def isWordChar (c : Char) : Bool :=
  c.isAlphanum || c == '_' || (0x400 ≤ c.toNat && c.toNat ≤ 0x4FF)

/-- findSpeakersGo scans for matches of the regex group-of-word-chars,
colon, whitespace, as re.findall does: non-overlapping, left to right,
capturing the maximal word-character run before the colon. -/
def findSpeakersGo : Str → Str → List Str
  | _, [] => []
  | _, [_] => []
  | run, c :: w :: t2 =>
    if isWordChar c then findSpeakersGo (c :: run) (w :: t2)
    else if c = ':' ∧ ¬ run = [] then
      if pyIsSpace w then run.reverse :: findSpeakersGo [] t2
      else findSpeakersGo [] (w :: t2)
    else findSpeakersGo [] (w :: t2)

/-- findSpeakers models re.findall of the speaker pattern in
process_transcript_chunk (src/main.py line 618). -/
def findSpeakers (s : Str) : List Str := findSpeakersGo [] s

def insertIfAbsent (l : List Str) (x : Str) : List Str :=
  if x ∈ l then l else l ++ [x]

/-! Session data model (src/main.py session_history entries).
The created_at datetime is external wall-clock state and is omitted. -/

structure ChunkRec where
  timestamp : Str
  original : Str
  cleaned : Str
deriving DecidableEq

structure SessionData where
  chunks : List ChunkRec
  questions_asked : Nat
  participants : List Str
deriving DecidableEq

/-! Text Intelligence Service environment: what the external OpenRouter
call would do on this invocation. -/

inductive GateEnv where
  /-- the HTTP request raises (network error, timeout). -/
  | exn
  /-- the HTTP request returns this status code and body content. -/
  | resp (code : Nat) (content : Str)
deriving DecidableEq

/-- parseGateLine folds one line of the gate response
(src/main.py lines 232-236). -/
def parseGateLine (st : Bool × Str) (line : Str) : Bool × Str :=
  if isPre (str r"НУЖЕН_ВОПРОС:") line then (occursInB (str r"Да") line, st.2)
  else if isPre (str r"ВОПРОС:") line then (st.1, pyStrip (removeVoprosTag line))
  else st

def parseGateResponse (result : Str) : Bool × Str :=
  (splitLines result).foldl parseGateLine (false, [])

/-- GateCall records one actual invocation of the external context-gate
capability: the arguments interpolated into the prompt
(src/main.py lines 175-196). -/
structure GateCall where
  current : Str
  context : List Str
  questions_asked : Nat
deriving DecidableEq

/-- analyze_context_with_openrouter (src/main.py lines 166-247): returns the
(needs_question, question_text) pair and, when the external service was
actually contacted, the GateCall describing that invocation. -/
def analyze_context_with_openrouter (ai_configured : Bool) (env : GateEnv)
    (current_chunk : Str) (session_history : List Str) (questions_asked : Nat) :
    (Bool × Str) × Option GateCall :=
  if ai_configured = false then ((false, []), none)
  else if 2 ≤ questions_asked then ((false, []), none)
  else
    let call : GateCall := ⟨current_chunk, pyLastN 3 session_history, questions_asked⟩
    match env with
    | .exn => ((false, []), some call)
    | .resp code content =>
      if code = 200 then (parseGateResponse (pyStrip content), some call)
      else ((false, []), some call)

/-- clean_text_with_openrouter (src/main.py lines 110-164): the env is
some content on HTTP 200, none on failure or non-200 (degrade to input). -/
def clean_text_with_openrouter (ai_configured : Bool) (env : Option Str)
    (text : Str) : Str :=
  if ai_configured = false then text
  else
    match env with
    | some content => pyStrip content
    | none => text

structure ChunkEnv where
  clean : Option Str
  gate : GateEnv
deriving DecidableEq

structure ChunkProcessResponse where
  action : Str
  question_text : Option Str
  cleaned_text : Option Str
deriving DecidableEq

/-- process_transcript_chunk (src/main.py lines 586-645), for an existing
session state: clean, append to history, update participants, gate, and
decide the action.  The third component reports the external gate
invocation actually made (none when short-circuited). -/
def process_transcript_chunk (ai_configured : Bool) (env : ChunkEnv)
    (s : SessionData) (text_chunk timestamp : Str) :
    SessionData × ChunkProcessResponse × Option GateCall :=
  let cleaned := clean_text_with_openrouter ai_configured env.clean text_chunk
  let chunks' := s.chunks ++ [⟨timestamp, text_chunk, cleaned⟩]
  let participants' := (findSpeakers cleaned).foldl insertIfAbsent s.participants
  let history_texts := chunks'.map (fun c => c.cleaned)
  let ar := analyze_context_with_openrouter ai_configured env.gate cleaned
    history_texts s.questions_asked
  if ar.1.1 = true ∧ ¬ ar.1.2 = [] then
    (⟨chunks', s.questions_asked + 1, participants'⟩,
     ⟨str r"ask_question", some ar.1.2, some cleaned⟩, ar.2)
  else
    (⟨chunks', s.questions_asked, participants'⟩,
     ⟨str r"continue", none, some cleaned⟩, ar.2)

/-- processChunks folds a sequence of chunk-processing calls over one
session, each with its own environment. -/
def processChunks (ai_configured : Bool) (s : SessionData)
    (calls : List (ChunkEnv × Str × Str)) : SessionData :=
  calls.foldl
    (fun acc c => (process_transcript_chunk ai_configured c.1 acc c.2.1 c.2.2).1) s

/-! Capture-side caption dedup (src/bot_service.py _parse_current_captions,
lines 441-576).  Each observed element carries its raw text and the
outcome of the DOM speaker lookup (method 1); speaker-resolution methods
only affect the speaker field except for method 2, which also rewrites
the text that is emitted and added to the seen-set.  The emitted value
modelled here is that text. -/

def recordCaption (seen : List Str) (ev : Option Str × Str) : List Str × List Str :=
  let text := pyStrip ev.2
  if text = [] then (seen, [])
  else if text ∈ seen then (seen, [])
  else
    let speaker0 : Str := match ev.1 with | some sp => sp | none => str r"Unknown"
    let text' :=
      if (':' ∈ text) ∧ speaker0 = str r"Unknown" then
        let p0 := beforeColon text
        if p0.length < 50 ∧ (pyStrip p0).any Char.isDigit = false then
          pyStrip (afterColon text)
        else text
      else text
    (insertIfAbsent seen text', [text'])

/-- parse_current_captions processes the caption elements found in one
scan of the page, threading the session seen-set and collecting the
newly emitted caption texts. -/
def parse_current_captions (seen : List Str) (elements : List (Option Str × Str)) :
    List Str × List Str :=
  elements.foldl
    (fun acc ev =>
      let r := recordCaption acc.1 ev
      (r.1, acc.2 ++ r.2)) (seen, [])

/-- captureSession folds successive capture scans over a session,
accumulating all emitted caption texts. -/
def captureSession (seen : List Str) (scans : List (List (Option Str × Str))) :
    List Str × List Str :=
  scans.foldl
    (fun acc scan =>
      let r := parse_current_captions acc.1 scan
      (r.1, acc.2 ++ r.2)) (seen, [])

/-! Final summary generation (src/main.py generate_meeting_summary,
lines 249-415). -/

structure MeetingSummary where
  participants : List Str
  key_decisions : List Str
  action_items : List Str
  questions_asked : List Str
  meeting_duration : Str
  summary_text : Str
deriving DecidableEq

inductive Sec where
  | participants
  | key_decisions
  | action_items
  | questions_asked
  | summary
deriving DecidableEq

structure SummaryParts where
  participants : List Str
  key_decisions : List Str
  action_items : List Str
  questions_asked : List Str
  summary_text : Str
deriving DecidableEq

def emptySummaryParts : SummaryParts := ⟨[], [], [], [], []⟩

/-- extractSummaryText (src/main.py lines 314-327): locate the first
header occurrence, markdown-wrapped or plain, and discard everything
before it; in the markdown case strip every double-star. -/
def extractSummaryText (raw_response : Str) : Str :=
  match findIdx (str r"**УЧАСТНИКИ:**") raw_response with
  | some i => removeStarStar (raw_response.drop i)
  | none =>
    match findIdx (str r"УЧАСТНИКИ:") raw_response with
    | some i => raw_response.drop i
    | none => raw_response

def lineUpperOf (line : Str) : Str :=
  removeChar '*' (removeStarStar (pyUpper line))

/-- parseLine is one iteration of the section-parsing loop
(src/main.py lines 345-390). -/
def parseLine (st : Option Sec × SummaryParts) (rawLine : Str) :
    Option Sec × SummaryParts :=
  let line := pyStrip rawLine
  if line = [] then st
  else
    let lu := lineUpperOf line
    if isPre (str r"УЧАСТНИКИ:") lu ∨ isPre (str r"УЧАСТНИКИ:") line then
      let pt0 := if (':' ∈ line) then pyStrip (afterColon line) else []
      let pt1 := removeChar ']' (removeChar '[' (removeChar '*' (removeStarStar pt0)))
      let ps :=
        if ¬ pt1 = [] ∧ ¬ (pyLower pt1 = [] ∨ pyLower pt1 = str r"нет" ∨
            pyLower pt1 = str r"отсутствуют") then
          ((splitChar ',' (pt1.map (fun c => if c = ';' then ',' else c))).map pyStrip).filter
            (fun p => decide (¬ p = [] ∧ 1 < p.length))
        else st.2.participants
      (some Sec.participants, { st.2 with participants := ps })
    else if isPre (str r"КЛЮЧЕВЫЕ_РЕШЕНИЯ:") lu ∨ isPre (str r"КЛЮЧЕВЫЕ РЕШЕНИЯ:") lu then
      (some Sec.key_decisions, st.2)
    else if isPre (str r"ЗАДАЧИ_И_ДЕЙСТВИЯ:") lu ∨ isPre (str r"ЗАДАЧИ И ДЕЙСТВИЯ:") lu then
      (some Sec.action_items, st.2)
    else if isPre (str r"ВОПРОСЫ_ОБСУЖДЕННЫЕ:") lu ∨ isPre (str r"ВОПРОСЫ ОБСУЖДЕННЫЕ:") lu then
      (some Sec.questions_asked, st.2)
    else if isPre (str r"ОБЩАЯ_СВОДКА:") lu ∨ isPre (str r"ОБЩАЯ СВОДКА:") lu then
      let sc0 := if (':' ∈ line) then pyStrip (afterColon line) else []
      (some Sec.summary, { st.2 with summary_text := removeChar '*' (removeStarStar sc0) })
    else if isPre (str r"- ") line ∨ isPre (str r"• ") line then
      let item0 := if isPre (str r"- ") line then pyStrip (line.drop 2) else pyStrip (line.drop 1)
      let item := removeChar '*' (removeStarStar item0)
      if ¬ item = [] ∧ 2 < item.length then
        match st.1 with
        | some Sec.participants =>
          (st.1, { st.2 with participants := st.2.participants ++ [item] })
        | some Sec.key_decisions =>
          (st.1, { st.2 with key_decisions := st.2.key_decisions ++ [item] })
        | some Sec.action_items =>
          (st.1, { st.2 with action_items := st.2.action_items ++ [item] })
        | some Sec.questions_asked =>
          (st.1, { st.2 with questions_asked := st.2.questions_asked ++ [item] })
        | some Sec.summary => st
        | none => st
      else st
    else if st.1 = some Sec.summary ∧ ¬ isPre (str r"УЧАСТНИКИ") line ∧
        ¬ isPre (str r"КЛЮЧЕВЫЕ") line ∧ ¬ isPre (str r"ЗАДАЧИ") line ∧
        ¬ isPre (str r"ВОПРОСЫ") line then
      (st.1, { st.2 with summary_text := st.2.summary_text ++ ' ' :: line })
    else st

/-- buildSummary assembles the MeetingSummary from the extracted text and
the session data (src/main.py lines 333-410). -/
def buildSummary (summaryText : Str) (session : SessionData) : MeetingSummary :=
  let parsed := (splitLines summaryText).foldl parseLine (none, emptySummaryParts)
  let sp := parsed.2
  { participants := if sp.participants = [] then session.participants else sp.participants
  , key_decisions := sp.key_decisions
  , action_items := sp.action_items
  , questions_asked := sp.questions_asked
  , meeting_duration := (r"~" ++ Nat.repr (session.chunks.length * 5) ++ r" минут").data
  , summary_text := pyStrip sp.summary_text }

/-- generate_meeting_summary for a successful summarize call whose
response body content is the first argument (the HTTP transport and the
prompt construction are external; a non-200 or raising call aborts the
endpoint and is not a MeetingSummary). -/
def generate_meeting_summary (content : Str) (session : SessionData) : MeetingSummary :=
  buildSummary (extractSummaryText (pyStrip content)) session

structure FinalTranscriptResponse where
  success : Bool
  summary : Option MeetingSummary
  telegram_sent : Bool
  message : Str
deriving DecidableEq

/-- process_final_transcript (src/main.py lines 647-694), success path:
the final transcript is cleaned (degrading to the input on failure), the
summarize call succeeds with body summaryContent, and the Telegram
delivery outcome is telegramOk. -/
def process_final_transcript (ai_configured : Bool) (cleanEnv : Option Str)
    (summaryContent : Str) (telegramOk : Bool) (session : SessionData)
    (full_raw_transcript : Str) : FinalTranscriptResponse :=
  let _cleaned := clean_text_with_openrouter ai_configured cleanEnv full_raw_transcript
  let summary := generate_meeting_summary summaryContent session
  ⟨true, some summary, telegramOk,
   str r"Meeting summary generated and notification sent successfully"⟩

/-- emphasizeLine wraps a recognized leading header token of a line in
markdown emphasis, leaving the rest of the line unchanged: the
transformation relating the two response shapes compared by the spec. -/
def headerTokens : List Str :=
  [str r"УЧАСТНИКИ:", str r"КЛЮЧЕВЫЕ_РЕШЕНИЯ:", str r"ЗАДАЧИ_И_ДЕЙСТВИЯ:",
   str r"ВОПРОСЫ_ОБСУЖДЕННЫЕ:", str r"ОБЩАЯ_СВОДКА:"]

def emphasizeLine (l : Str) : Str :=
  match headerTokens.find? (fun h => isPre h l) with
  | some h => str r"**" ++ h ++ str r"**" ++ l.drop h.length
  | none => l

/-- joinTail and joinL model the newline join of a list of lines. -/
def joinTail : List Str → Str
  | [] => []
  | l :: ls => '\n' :: (l ++ joinTail ls)

def joinL : List Str → Str
  | [] => []
  | l :: ls => l ++ joinTail ls

/-! Agent stop/status endpoints (src/main.py lines 546-582,
src/bot_service.py MeetingAgent.stop lines 105-126).
The MeetingAgent is modelled by the fields the endpoints observe; the
transcripts_sent counter counts _send_final_transcript invocations, the
observable side effect of stop. -/

structure AgentM where
  status : Str
  should_stop : Bool
  transcripts_sent : Nat
deriving DecidableEq

/-- AgentM.stop: MeetingAgent.stop sets should_stop, passes through
status "stopping", sends the final transcript once, and ends with
status "stopped"; it never raises (inner failures are caught). -/
def AgentM.stop (a : AgentM) : AgentM :=
  { status := str r"stopped", should_stop := true,
    transcripts_sent := a.transcripts_sent + 1 }

def lookupSession (m : List (Str × AgentM)) (sid : Str) : Option AgentM :=
  match m.find? (fun p => p.1 == sid) with
  | some p => some p.2
  | none => none

def removeSession (m : List (Str × AgentM)) (sid : Str) : List (Str × AgentM) :=
  m.filter (fun p => ¬ p.1 = sid)

inductive StopOutcome where
  | ok (session_id status message : Str)
  | httpError (code : Nat) (detail : Str)
deriving DecidableEq

/-- stop_agent (src/main.py lines 546-565).  The whole body sits inside a
blanket `except Exception` that re-raises every failure, including the
inner HTTPException(404), as a 500 whose detail wraps str(e)
(= "404: Session not found" for the starlette HTTPException). -/
def stop_agent (m : List (Str × AgentM)) (sid : Str) :
    List (Str × AgentM) × StopOutcome × Option AgentM :=
  match lookupSession m sid with
  | none =>
    (m, .httpError 500 (str r"Failed to stop agent: 404: Session not found"), none)
  | some a =>
    let a' := AgentM.stop a
    (removeSession m sid,
     .ok sid (str r"stopped") (str r"Agent session stopped successfully"), some a')

inductive StatusOutcome where
  | ok (session_id status : Str)
  | httpError (code : Nat) (detail : Str)
deriving DecidableEq

/-- get_agent_status (src/main.py lines 567-582): no try wrapper, so the
404 reaches the caller as-is; the read mutates nothing (it takes the map
and returns only an outcome). -/
def get_agent_status (m : List (Str × AgentM)) (sid : Str) : StatusOutcome :=
  match lookupSession m sid with
  | none => .httpError 404 (str r"Session not found")
  | some a => .ok sid a.status

/-! Session history endpoint (src/main.py get_session_history,
lines 698-712). -/

structure HistoryResponse where
  session_id : Str
  chunks_count : Nat
  questions_asked : Nat
  participants : List Str
  chunks : List ChunkRec
deriving DecidableEq

def lookupHistory (m : List (Str × SessionData)) (sid : Str) : Option SessionData :=
  match m.find? (fun p => p.1 == sid) with
  | some p => some p.2
  | none => none

/-- get_session_history: none models the 404 on an unknown id. -/
def get_session_history (m : List (Str × SessionData)) (sid : Str) :
    Option HistoryResponse :=
  match lookupHistory m sid with
  | none => none
  | some sd =>
    some ⟨sid, sd.chunks.length, sd.questions_asked, sd.participants,
          pyLastN 5 sd.chunks⟩

/-! Status poller (src/bot.py poll_agent_status, lines 178-290).
One fetch outcome per loop iteration; the Telegram channel is modelled
as reliable (the edit-failure fallback at lines 233-240 does not change
the counted emissions under a reliable channel). -/

structure RespData where
  status : Str
  last_question : Option Str
  question : Option Str
deriving DecidableEq

inductive FetchOutcome where
  | exn
  | resp (code : Nat) (data : RespData)
deriving DecidableEq

structure PollState where
  error_count : Nat
  last_status_text : Option Str
  keyboard_sent : Bool
  last_question_sent : Option Str
deriving DecidableEq

def initialPollState : PollState := ⟨0, none, false, none⟩

inductive Emit where
  | statusMsg (t : Str)
  | questionMsg (q : Str)
  | stopKeyboard
  | connLost
deriving DecidableEq

def startingFamily : List Str := [str r"starting", str r"launching"]
def waitingFamily : List Str := [str r"waiting_admission", str r"waiting"]
def joinedFamily : List Str := [str r"joined", str r"in_call", str r"connected"]
def errorFamily : List Str := [str r"error", str r"failed"]
def stoppedFamily : List Str := [str r"stopped", str r"finished"]

def mapStatus (status : Str) : Option Str :=
  if status ∈ startingFamily then some (str r"🟡 Агент запускает браузер...")
  else if status ∈ waitingFamily then some (str r"🟠 Агент ждет разрешения на вход...")
  else if status ∈ joinedFamily then some (str r"🟢 Агент успешно присоединился к звонку!")
  else if status ∈ errorFamily then some (str r"🔴 Ошибка у агента")
  else none

/-- truthy models Python truthiness of an optional string. -/
def truthy : Option Str → Option Str
  | none => none
  | some s => if s = [] then none else some s

/-- pollStep is one iteration of the poll loop: the returned Bool is true
when the loop breaks.  On the stopped family the code breaks inside the
mapping chain, before any emission. -/
def pollStep (st : PollState) (o : FetchOutcome) : PollState × List Emit × Bool :=
  match o with
  | .exn =>
    let ec := st.error_count + 1
    if 5 ≤ ec then ({ st with error_count := ec }, [.connLost], true)
    else ({ st with error_count := ec }, [], false)
  | .resp code data =>
    let st0 := { st with error_count := 0 }
    if ¬ code = 200 then (st0, [], false)
    else
      let status := pyLower data.status
      if status ∈ stoppedFamily then (st0, [], true)
      else
        match mapStatus status with
        | none => (st0, [], false)
        | some t =>
          let p1 :=
            if ¬ some t = st0.last_status_text then
              ({ st0 with last_status_text := some t }, [Emit.statusMsg t])
            else (st0, ([] : List Emit))
          let q :=
            match truthy data.last_question with
            | some s => some s
            | none => truthy data.question
          let p2 :=
            match q with
            | some qq =>
              if ¬ some qq = p1.1.last_question_sent then
                ({ p1.1 with last_question_sent := some qq }, [Emit.questionMsg qq])
              else (p1.1, ([] : List Emit))
            | none => (p1.1, ([] : List Emit))
          let p3 :=
            if status ∈ joinedFamily ∧ p2.1.keyboard_sent = false then
              ({ p2.1 with keyboard_sent := true }, [Emit.stopKeyboard])
            else (p2.1, ([] : List Emit))
          (p3.1, p1.2 ++ p2.2 ++ p3.2, false)

/-- poll_agent_status runs the poll loop over a script of fetch outcomes,
returning the emissions, the number of fetches performed, and whether
the loop terminated by itself. -/
def poll_agent_status (st : PollState) : List FetchOutcome → List Emit × Nat × Bool
  | [] => ([], 0, false)
  | o :: rest =>
    let r := pollStep st o
    if r.2.2 then (r.2.1, 1, true)
    else
      let r2 := poll_agent_status r.1 rest
      (r.2.1 ++ r2.1, r2.2.1 + 1, r2.2.2)

/-! Specification predicates and concrete instances used by the theorems. -/

/-- gateDegraded env holds when the context-gate call fails (exception or
non-200) or returns 200 with free text containing no line of the
expected НУЖЕН_ВОПРОС / ВОПРОС shape. -/
def gateDegraded : GateEnv → Prop
  | .exn => True
  | .resp code content =>
    ¬ code = 200 ∨
      ∀ l ∈ splitLines (pyStrip content),
        isPre (str r"НУЖЕН_ВОПРОС:") l = false ∧ isPre (str r"ВОПРОС:") l = false

instance gateDegradedDec : (e : GateEnv) → Decidable (gateDegraded e)
  | .exn => .isTrue trivial
  | .resp code content =>
    inferInstanceAs (Decidable (¬ code = 200 ∨
      ∀ l ∈ splitLines (pyStrip content),
        isPre (str r"НУЖЕН_ВОПРОС:") l = false ∧ isPre (str r"ВОПРОС:") l = false))

/-- Concrete gate response that always asks for a question. -/
def gateYesContent : Str :=
  str r"НУЖЕН_ВОПРОС: Да" ++ '\n' :: str r"ВОПРОС: Кто ответственный?"

def gateYesEnv : ChunkEnv := ⟨some (str r"чистый текст"), .resp 200 gateYesContent⟩

/-- Five chunk calls whose gate environment asks a question every time. -/
def c1calls : List (ChunkEnv × Str × Str) :=
  List.replicate 5 (gateYesEnv, str r"кусок", str r"t")

def c1session : SessionData := ⟨[], 0, []⟩

def c5env : ChunkEnv := ⟨none, .resp 200 (str r"непонятный свободный ответ")⟩

def c5s : SessionData := ⟨[], 0, []⟩

def c7s : SessionData :=
  ⟨[⟨[], [], str r"a"⟩, ⟨[], [], str r"b"⟩, ⟨[], [], str r"c"⟩], 0, []⟩

def c7env : ChunkEnv := ⟨some (str r"d"), .resp 200 (str r"НУЖЕН_ВОПРОС: Нет")⟩

/-- Two successive capture scans that both observe the same raw caption
element text, with no DOM-resolved speaker. -/
def c2scans : List (List (Option Str × Str)) :=
  [[(none, str r"Alice: hi")], [(none, str r"Alice: hi")]]

def c6err : AgentM := ⟨str r"error", false, 1⟩

def c6map : List (Str × AgentM) := [(str r"s1", c6err)]

def c8active : FetchOutcome := .resp 200 ⟨str r"active", none, none⟩

def c10sd : SessionData :=
  ⟨[⟨str r"t1", str r"o1", str r"c1"⟩, ⟨str r"t2", str r"o2", str r"c2"⟩,
    ⟨str r"t3", str r"o3", str r"c3"⟩, ⟨str r"t4", str r"o4", str r"c4"⟩,
    ⟨str r"t5", str r"o5", str r"c5"⟩, ⟨str r"t6", str r"o6", str r"c6"⟩,
    ⟨str r"t7", str r"o7", str r"c7"⟩], 2, [str r"Павел"]⟩

def c10map : List (Str × SessionData) := [(str r"h", c10sd)]

/-- noHeaderLine l holds when the stripped line triggers none of the
section-header branches of the parsing loop: it is empty, or neither its
upper-cased star-stripped form nor (for УЧАСТНИКИ) the raw line starts
with any recognized header token. -/
def noHeaderLine (l : Str) : Prop :=
  pyStrip l = [] ∨
  (isPre (str r"УЧАСТНИКИ:") (lineUpperOf (pyStrip l)) = false ∧
   isPre (str r"УЧАСТНИКИ:") (pyStrip l) = false ∧
   isPre (str r"КЛЮЧЕВЫЕ_РЕШЕНИЯ:") (lineUpperOf (pyStrip l)) = false ∧
   isPre (str r"КЛЮЧЕВЫЕ РЕШЕНИЯ:") (lineUpperOf (pyStrip l)) = false ∧
   isPre (str r"ЗАДАЧИ_И_ДЕЙСТВИЯ:") (lineUpperOf (pyStrip l)) = false ∧
   isPre (str r"ЗАДАЧИ И ДЕЙСТВИЯ:") (lineUpperOf (pyStrip l)) = false ∧
   isPre (str r"ВОПРОСЫ_ОБСУЖДЕННЫЕ:") (lineUpperOf (pyStrip l)) = false ∧
   isPre (str r"ВОПРОСЫ ОБСУЖДЕННЫЕ:") (lineUpperOf (pyStrip l)) = false ∧
   isPre (str r"ОБЩАЯ_СВОДКА:") (lineUpperOf (pyStrip l)) = false ∧
   isPre (str r"ОБЩАЯ СВОДКА:") (lineUpperOf (pyStrip l)) = false)

instance noHeaderLineDec (l : Str) : Decidable (noHeaderLine l) := by
  unfold noHeaderLine
  infer_instance

def c3resp : Str := str r"Свободный текст без заголовков"

def c3transcript : Str := str r"исходная расшифровка"

def c3session : SessionData := ⟨[], 0, []⟩

def c3wcontent : Str :=
  str r"Ответ модели без структуры" ++ '\n' :: str r"- маркированный пункт"

def c4l0 : Str := str r"УЧАСТНИКИ: Алиса, Боб"

def c4rest : List Str :=
  [str r"КЛЮЧЕВЫЕ_РЕШЕНИЯ:", str r"- Принято решение X",
   str r"ОБЩАЯ_СВОДКА: Итоги встречи"]

def c4session : SessionData := ⟨[], 0, []⟩

/-- A preamble line (model reasoning) preceding the structured sections. -/
def c4pre : List Str := [str r"Рассуждение модели."]

/-- Content whose summary continuation line itself contains markdown
emphasis: the case on which the two header forms parse differently. -/
def c4badRest : List Str := [str r"ОБЩАЯ_СВОДКА: Итог", str r"текст **жирный**"]

/-! Theorems. -/

theorem analyze_quota (cfg : Bool) (env : GateEnv) (cur : Str) (hist : List Str)
    (qa : Nat) (h : 2 ≤ qa) :
    analyze_context_with_openrouter cfg env cur hist qa = ((false, []), none) := by
  unfold analyze_context_with_openrouter
  by_cases hc : cfg = false
  · simp [hc]
  · simp [hc, h]

theorem analyze_true_lt (cfg : Bool) (env : GateEnv) (cur : Str) (hist : List Str)
    (qa : Nat) (h : (analyze_context_with_openrouter cfg env cur hist qa).1.1 = true) :
    qa < 2 := by
  by_contra hq
  rw [Nat.not_lt] at hq
  rw [analyze_quota cfg env cur hist qa hq] at h
  simp at h

theorem process_qa_cases (cfg : Bool) (env : ChunkEnv) (s : SessionData) (t ts : Str) :
    (process_transcript_chunk cfg env s t ts).1.questions_asked = s.questions_asked ∨
    ((process_transcript_chunk cfg env s t ts).1.questions_asked = s.questions_asked + 1 ∧
      s.questions_asked < 2) := by
  simp only [process_transcript_chunk]
  split
  · next hcond =>
    exact Or.inr ⟨rfl, analyze_true_lt _ _ _ _ _ hcond.1⟩
  · exact Or.inl rfl

theorem process_qa_le (cfg : Bool) (env : ChunkEnv) (s : SessionData) (t ts : Str)
    (h : s.questions_asked ≤ 2) :
    (process_transcript_chunk cfg env s t ts).1.questions_asked ≤ 2 := by
  rcases process_qa_cases cfg env s t ts with h1 | ⟨h1, h2⟩ <;> omega

theorem processChunks_le (cfg : Bool) (calls : List (ChunkEnv × Str × Str)) :
    ∀ s : SessionData, s.questions_asked ≤ 2 →
      (processChunks cfg s calls).questions_asked ≤ 2 := by
  induction calls with
  | nil => intro s h; simpa [processChunks] using h
  | cons c cs ih =>
    intro s h
    have hstep : processChunks cfg s (c :: cs) =
        processChunks cfg (process_transcript_chunk cfg c.1 s c.2.1 c.2.2).1 cs := by
      simp [processChunks]
    rw [hstep]
    exact ih _ (process_qa_le _ _ _ _ _ h)

/-- C1: the per-session questions_asked counter is incremented by at most
one per chunk call, stays at or below the quota 2 along any sequence of
calls, and once the counter has reached 2 every call returns
action = continue with no increment, whatever the gate environment
(including one whose response demands a question). -/
theorem c1_questions_quota (cfg : Bool) (env : ChunkEnv) (s : SessionData) (t ts : Str)
    (calls : List (ChunkEnv × Str × Str)) :
    ((process_transcript_chunk cfg env s t ts).1.questions_asked = s.questions_asked ∨
      (process_transcript_chunk cfg env s t ts).1.questions_asked = s.questions_asked + 1)
  ∧ (s.questions_asked ≤ 2 → (processChunks cfg s calls).questions_asked ≤ 2)
  ∧ (2 ≤ s.questions_asked →
      (process_transcript_chunk cfg env s t ts).2.1.action = str r"continue"
    ∧ (process_transcript_chunk cfg env s t ts).1.questions_asked = s.questions_asked) := by
  refine ⟨?_, fun h => processChunks_le cfg calls s h, fun h => ?_⟩
  · rcases process_qa_cases cfg env s t ts with h1 | ⟨h1, _⟩
    · exact Or.inl h1
    · exact Or.inr h1
  · simp only [process_transcript_chunk, analyze_quota _ _ _ _ _ h]
    simp

/-- C1 witness: five chunk calls whose gate environment always demands a
question, starting from a fresh session, end with at most 2 questions. -/
theorem c1_questions_quota_witness :
    c1session.questions_asked ≤ 2 ∧
    (processChunks true c1session c1calls).questions_asked ≤ 2 :=
  ⟨by decide,
   (c1_questions_quota true gateYesEnv c1session [] [] c1calls).2.1 (by decide)⟩

theorem parseGateLine_skip (st : Bool × Str) (l : Str)
    (h1 : isPre (str r"НУЖЕН_ВОПРОС:") l = false)
    (h2 : isPre (str r"ВОПРОС:") l = false) : parseGateLine st l = st := by
  simp [parseGateLine, h1, h2]

theorem parseGate_degraded (lines : List Str)
    (h : ∀ l ∈ lines,
      isPre (str r"НУЖЕН_ВОПРОС:") l = false ∧ isPre (str r"ВОПРОС:") l = false) :
    lines.foldl parseGateLine (false, []) = (false, ([] : Str)) := by
  induction lines with
  | nil => rfl
  | cons l ls ih =>
    rw [List.foldl_cons,
      parseGateLine_skip _ _ (h l (by simp)).1 (h l (by simp)).2]
    exact ih (fun x hx => h x (by simp [hx]))

theorem analyze_degraded (cfg : Bool) (env : GateEnv) (cur : Str) (hist : List Str)
    (qa : Nat) (h : gateDegraded env) :
    (analyze_context_with_openrouter cfg env cur hist qa).1 = (false, []) := by
  unfold analyze_context_with_openrouter
  by_cases hc : cfg = false
  · simp [hc]
  · by_cases hq : 2 ≤ qa
    · simp [hc, hq]
    · cases env with
      | exn => simp [hc, hq]
      | resp code content =>
        unfold gateDegraded at h
        rcases h with h200 | hlines
        · simp [hc, hq, h200]
        · by_cases h2 : code = 200
          · simp [hc, hq, h2, parseGateResponse, parseGate_degraded _ hlines]
          · simp [hc, hq, h2]

/-- C5: whenever the context-gate capability raises, answers non-200, or
answers 200 with text containing no НУЖЕН_ВОПРОС / ВОПРОС line, the gate
evaluates to (false, empty) and the chunk call returns action = continue
with no question and no counter change; the model is a total function,
so no error propagates out of the pipeline. -/
theorem c5_gate_fail_open (cfg : Bool) (env : ChunkEnv) (s : SessionData) (t ts : Str)
    (h : gateDegraded env.gate) :
    (∀ (cur : Str) (hist : List Str) (qa : Nat),
      (analyze_context_with_openrouter cfg env.gate cur hist qa).1 = (false, []))
  ∧ (process_transcript_chunk cfg env s t ts).2.1.action = str r"continue"
  ∧ (process_transcript_chunk cfg env s t ts).2.1.question_text = none
  ∧ (process_transcript_chunk cfg env s t ts).1.questions_asked = s.questions_asked := by
  refine ⟨fun cur hist qa => analyze_degraded cfg env.gate cur hist qa h, ?_⟩
  have ha := analyze_degraded cfg env.gate (clean_text_with_openrouter cfg env.clean t)
    (s.chunks.map (fun c : ChunkRec => c.cleaned) ++
      [clean_text_with_openrouter cfg env.clean t]) s.questions_asked h
  simp [process_transcript_chunk, ha]

/-- C5 witness: a 200 response in a shape the parser does not recognize
degrades to continue on a concrete session. -/
theorem c5_gate_fail_open_witness :
    gateDegraded c5env.gate ∧
    (process_transcript_chunk true c5env c5s (str r"кусок") []).2.1.action =
      str r"continue" :=
  ⟨by decide,
   (c5_gate_fail_open true c5env c5s (str r"кусок") [] (by decide)).2.1⟩

theorem drop_append_le (l1 l2 : List α) :
    ∀ n, n ≤ l1.length → (l1 ++ l2).drop n = l1.drop n ++ l2 := by
  induction l1 with
  | nil =>
    intro n h
    simp [Nat.le_zero.mp (by simpa using h)]
  | cons a l ih =>
    intro n h
    cases n with
    | zero => simp
    | succ m =>
      simp only [List.cons_append, List.drop_succ_cons]
      exact ih m (by simpa using h)

theorem pyLastN_append_one (l : List α) (x : α) :
    pyLastN 3 (l ++ [x]) = pyLastN 2 l ++ [x] := by
  unfold pyLastN
  have h1 : (l ++ [x]).length - 3 = l.length - 2 := by
    simp only [List.length_append, List.length_singleton]
    omega
  rw [h1, drop_append_le l [x] (l.length - 2) (by omega)]

theorem analyze_call_lt (env : GateEnv) (cur : Str) (hist : List Str) (qa : Nat)
    (h : qa < 2) :
    (analyze_context_with_openrouter true env cur hist qa).2 =
      some ⟨cur, pyLastN 3 hist, qa⟩ := by
  unfold analyze_context_with_openrouter
  have h2 : ¬ 2 ≤ qa := by omega
  cases env with
  | exn => simp [h2]
  | resp code content =>
    by_cases hc : code = 200 <;> simp [h2, hc]

/-- C7: corrected form.  When questions_asked < 2 (and the AI is
configured) the external gate is invoked with the current cleaned chunk
and a context equal to the last 3 entries of the history after the
current chunk has been appended — that is, the 2 preceding cleaned
chunks plus the current one, not the last 3 preceding chunks; when
questions_asked ≥ 2 the external gate capability is not invoked at all. -/
theorem c7_gate_invocation (env : ChunkEnv) (s : SessionData) (t ts : Str) :
    (s.questions_asked < 2 →
        (process_transcript_chunk true env s t ts).2.2 =
          some ⟨clean_text_with_openrouter true env.clean t,
                pyLastN 2 (s.chunks.map (fun c => c.cleaned)) ++
                  [clean_text_with_openrouter true env.clean t],
                s.questions_asked⟩)
  ∧ (2 ≤ s.questions_asked →
      ∀ cfg : Bool, (process_transcript_chunk cfg env s t ts).2.2 = none) := by
  constructor
  · intro h
    have hcall := analyze_call_lt env.gate (clean_text_with_openrouter true env.clean t)
      ((s.chunks ++ [(⟨ts, t, clean_text_with_openrouter true env.clean t⟩ : ChunkRec)]).map
        (fun c => c.cleaned)) s.questions_asked h
    simp only [List.map_append, List.map_cons, List.map_nil, pyLastN_append_one] at hcall
    simp only [process_transcript_chunk]
    split <;>
      (simp only [List.map_append, List.map_cons, List.map_nil]; exact hcall)
  · intro h cfg
    simp [process_transcript_chunk, analyze_quota _ _ _ _ _ h]

/-- C7 counterexample: with three prior cleaned chunks a, b, c and a
current chunk cleaned to d, the gate is invoked with context
[b, c, d] — not with the last 3 chunks preceding the current one,
[a, b, c], as the claim states. -/
theorem c7_counterexample :
    (process_transcript_chunk true c7env c7s (str r"d0") []).2.2 =
      some ⟨str r"d", [str r"b", str r"c", str r"d"], 0⟩
  ∧ ¬ ([str r"b", str r"c", str r"d"] = [str r"a", str r"b", str r"c"]) := by
  decide

/-- C7 witness: the corrected invocation shape at the concrete session. -/
theorem c7_gate_invocation_witness :
    (process_transcript_chunk true c7env c7s (str r"d0") []).2.2 =
      some ⟨clean_text_with_openrouter true c7env.clean (str r"d0"),
            pyLastN 2 (c7s.chunks.map (fun c => c.cleaned)) ++
              [clean_text_with_openrouter true c7env.clean (str r"d0")],
            c7s.questions_asked⟩ :=
  (c7_gate_invocation c7env c7s (str r"d0") []).1 (by decide)

/-- C2: the capture dedup is broken by the speaker rewrite.  The raw
element text "Alice: hi" is checked against the seen-set, but the value
added to the seen-set is the rewritten message text "hi"; a second scan
observing the identical raw text is therefore processed again and the
same text value "hi" is emitted downstream twice, while the seen-set
holds only "hi". -/
theorem c2_dedup_violation :
    (captureSession [] c2scans).2 = [str r"hi", str r"hi"]
  ∧ (captureSession [] c2scans).1 = [str r"hi"] := by decide

/-- C6 counterexample: stopping a session whose agent is in the terminal
status "error" is not a no-op — it reports "stopped" (not the current
terminal state) and removes the session from the map — and stopping an
unknown session id is reported as a 500 internal error (the inner 404 is
swallowed by the blanket except), not as not-found. -/
theorem c6_counterexample :
    (stop_agent c6map (str r"s1")).2.1 =
      StopOutcome.ok (str r"s1") (str r"stopped")
        (str r"Agent session stopped successfully")
  ∧ ¬ str r"stopped" = c6err.status
  ∧ (stop_agent c6map (str r"s1")).1 = []
  ∧ (stop_agent c6map (str r"missing")).2.1 =
      StopOutcome.httpError 500 (str r"Failed to stop agent: 404: Session not found") := by
  decide

/-- C6: corrected form.  A status request for an unknown session id is
reported as a 404 not-found with no side effect; a stop request for an
unknown session id is reported as a 500 error wrapping the not-found
detail, also with no side effect on the session map; a stop on a session
whose agent already sits in a terminal status (stopped or error) does
not fail: it re-runs the stop sequence (resending the final transcript
and forcing status "stopped") and reports status "stopped" rather than
the prior terminal state. -/
theorem c6_stop_terminal_and_not_found (m : List (Str × AgentM)) (sid : Str) :
    (lookupSession m sid = none →
        stop_agent m sid =
          (m, .httpError 500 (str r"Failed to stop agent: 404: Session not found"), none)
      ∧ get_agent_status m sid = .httpError 404 (str r"Session not found"))
  ∧ ∀ a : AgentM, lookupSession m sid = some a →
      (a.status = str r"stopped" ∨ a.status = str r"error") →
        (stop_agent m sid).2.1 =
          .ok sid (str r"stopped") (str r"Agent session stopped successfully")
      ∧ (stop_agent m sid).2.2 = some (AgentM.stop a)
      ∧ (AgentM.stop a).transcripts_sent = a.transcripts_sent + 1
      ∧ (AgentM.stop a).status = str r"stopped" := by
  constructor
  · intro h
    unfold stop_agent get_agent_status
    rw [h]
    exact ⟨rfl, rfl⟩
  · intro a h _
    unfold stop_agent
    rw [h]
    exact ⟨rfl, rfl, rfl, rfl⟩

/-- C6 witness: the corrected behaviour at a concrete map holding an
error-status session. -/
theorem c6_stop_terminal_and_not_found_witness :
    get_agent_status c6map (str r"missing") =
      StatusOutcome.httpError 404 (str r"Session not found")
  ∧ (stop_agent c6map (str r"s1")).2.2 = some (AgentM.stop c6err) :=
  ⟨((c6_stop_terminal_and_not_found c6map (str r"missing")).1 (by decide)).2,
   (((c6_stop_terminal_and_not_found c6map (str r"s1")).2 c6err (by decide)
      (by decide)).2.1)⟩

/-- C8: the backend sets status "active" when the agent has joined, but
poll_agent_status recognizes only "joined" / "in_call" / "connected";
a streak of "active" statuses is skipped silently — no status message
and no stop-control affordance is ever emitted, against the claim that
the affordance appears exactly once over an active/joined streak. -/
theorem c8_active_streak_skipped :
    poll_agent_status initialPollState [c8active, c8active, c8active] =
      ([], 3, false) := by decide

theorem pollStep_resp_error_count (st : PollState) (code : Nat) (data : RespData) :
    (pollStep st (.resp code data)).1.error_count = 0 := by
  simp only [pollStep]
  repeat' split
  all_goals rfl

/-- C9: starting with a clean consecutive-failure counter, five
consecutive fetch failures make the loop emit exactly one
connection-lost notice and terminate after exactly 5 fetches, whatever
outcomes would have followed; and any fetch that returns a response
resets the consecutive-failure counter to 0. -/
theorem c9_five_failures (st : PollState) (rest : List FetchOutcome)
    (h : st.error_count = 0) :
    poll_agent_status st
        (FetchOutcome.exn :: .exn :: .exn :: .exn :: .exn :: rest) =
      ([Emit.connLost], 5, true)
  ∧ ∀ (code : Nat) (data : RespData),
      (pollStep st (.resp code data)).1.error_count = 0 := by
  refine ⟨?_, fun code data => pollStep_resp_error_count st code data⟩
  rcases st with ⟨ec, lst, kb, lq⟩
  have h0 : ec = 0 := h
  subst h0
  simp [poll_agent_status, pollStep]

/-- C9 witness: the five-failure run from the initial poll state. -/
theorem c9_five_failures_witness :
    poll_agent_status initialPollState
        [FetchOutcome.exn, .exn, .exn, .exn, .exn] =
      ([Emit.connLost], 5, true) :=
  (c9_five_failures initialPollState [] (by decide)).1

/-- C10: on a known session the history endpoint reports the full chunk
count, the questions_asked counter and the participants set, and returns
as chunks exactly the suffix of the stored history starting at index
length - 5, whose length is min(length, 5): chunks older than the most
recent 5 are never included. -/
theorem c10_history_window (m : List (Str × SessionData)) (sid : Str) (sd : SessionData)
    (h : lookupHistory m sid = some sd) :
    get_session_history m sid =
      some ⟨sid, sd.chunks.length, sd.questions_asked, sd.participants,
            sd.chunks.drop (sd.chunks.length - 5)⟩
  ∧ (pyLastN 5 sd.chunks).length = min sd.chunks.length 5 := by
  constructor
  · unfold get_session_history
    rw [h]
    rfl
  · unfold pyLastN
    rw [List.length_drop]
    omega

/-- C10 witness: a session with 7 chunks reports chunks_count 7 and
returns only the last 5 chunks. -/
theorem c10_history_window_witness :
    get_session_history c10map (str r"h") =
      some ⟨str r"h", c10sd.chunks.length, c10sd.questions_asked, c10sd.participants,
            c10sd.chunks.drop (c10sd.chunks.length - 5)⟩ :=
  (c10_history_window c10map (str r"h") c10sd (by decide)).1

theorem parseLine_skip (p : SummaryParts) (l : Str) (h : noHeaderLine l) :
    parseLine (none, p) l = (none, p) := by
  rcases h with he | hc
  · simp [parseLine, he]
  · obtain ⟨h1, h2, h3, h4, h5, h6, h7, h8, h9, h10⟩ := hc
    by_cases he2 : pyStrip l = []
    · simp [parseLine, he2]
    · simp [parseLine, he2, h1, h2, h3, h4, h5, h6, h7, h8, h9, h10]

theorem parse_noHeaders (lines : List Str) :
    ∀ p : SummaryParts, (∀ l ∈ lines, noHeaderLine l) →
      lines.foldl parseLine (none, p) = (none, p) := by
  induction lines with
  | nil => intro p _; rfl
  | cons l ls ih =>
    intro p h
    rw [List.foldl_cons, parseLine_skip p l (h l (by simp))]
    exact ih p (fun x hx => h x (by simp [hx]))

/-- C3: corrected form.  If the summarize call succeeds but its response
contains no recognizable section headers, the parse still produces a
MeetingSummary (the model is total, no exception), with key_decisions,
action_items and questions_asked all empty, the participants field
falling back to the streaming participants set — but summary_text is the
empty string, not the degraded-clean transcript text. -/
theorem c3_no_headers_degrades (content : Str) (session : SessionData)
    (h1 : findIdx (str r"**УЧАСТНИКИ:**") (pyStrip content) = none)
    (h2 : findIdx (str r"УЧАСТНИКИ:") (pyStrip content) = none)
    (h3 : ∀ l ∈ splitLines (pyStrip content), noHeaderLine l) :
    (generate_meeting_summary content session).key_decisions = []
  ∧ (generate_meeting_summary content session).action_items = []
  ∧ (generate_meeting_summary content session).questions_asked = []
  ∧ (generate_meeting_summary content session).summary_text = []
  ∧ (generate_meeting_summary content session).participants = session.participants := by
  have hext : extractSummaryText (pyStrip content) = pyStrip content := by
    unfold extractSummaryText
    rw [h1, h2]
  unfold generate_meeting_summary buildSummary
  rw [hext, parse_noHeaders _ emptySummaryParts h3]
  simp [emptySummaryParts, pyStrip, lstripWS]

/-- C3 counterexample: a headerless summarize response on a transcript
whose cleaning degraded to the original text yields summary_text = "",
not the (nonempty) degraded-clean transcript text claimed. -/
theorem c3_counterexample :
    ((process_final_transcript true none c3resp false c3session c3transcript).summary.map
      (fun ms => ms.summary_text)) = some []
  ∧ clean_text_with_openrouter true none c3transcript = c3transcript
  ∧ ¬ c3transcript = ([] : Str) := by decide

/-- C3 witness: the corrected degradation at a concrete headerless
response of two lines, one of them bullet-prefixed. -/
theorem c3_no_headers_degrades_witness :
    (generate_meeting_summary c3wcontent c3session).key_decisions = []
  ∧ (generate_meeting_summary c3wcontent c3session).summary_text = [] :=
  ⟨(c3_no_headers_degrades c3wcontent c3session (by decide) (by decide) (by decide)).1,
   (c3_no_headers_degrades c3wcontent c3session (by decide) (by decide)
      (by decide)).2.2.2.1⟩

theorem isPre_append (p l t : Str) (h : isPre p l = true) : isPre p (l ++ t) = true := by
  induction p generalizing l with
  | nil => rfl
  | cons a p ih =>
    cases l with
    | nil => simp [isPre] at h
    | cons b l2 =>
      rw [List.cons_append]
      by_cases hab : a = b
      · simp only [isPre, if_pos hab] at h ⊢
        exact ih l2 h
      · simp only [isPre, if_neg hab] at h
        exact absurd h (by simp)

theorem isPre_self_append (p t : Str) : isPre p (p ++ t) = true := by
  induction p with
  | nil => rfl
  | cons a p ih => simp [isPre, ih]

theorem isPre_append_drop (p l : Str) (h : isPre p l = true) : p ++ l.drop p.length = l := by
  induction p generalizing l with
  | nil => simp
  | cons a p ih =>
    cases l with
    | nil => simp [isPre] at h
    | cons b l2 =>
      by_cases hab : a = b
      · subst hab
        have h2 : isPre p l2 = true := by simpa [isPre] using h
        simp only [List.cons_append, List.length_cons, List.drop_succ_cons]
        rw [ih l2 h2]
      · simp [isPre, hab] at h

theorem rss_cons (c : Char) (t : Str) (h : ¬ c = '*') :
    removeStarStar (c :: t) = c :: removeStarStar t := by
  cases t with
  | nil => rfl
  | cons d t2 => simp [removeStarStar, h]

theorem rss_star_star (t : Str) :
    removeStarStar ('*' :: '*' :: t) = removeStarStar t := by
  simp [removeStarStar]

theorem rss_starfree_append (s t : Str) (h : ∀ c ∈ s, ¬ c = '*') :
    removeStarStar (s ++ t) = s ++ removeStarStar t := by
  induction s with
  | nil => rfl
  | cons c s2 ih =>
    rw [List.cons_append, rss_cons c _ (h c (by simp)),
      ih (fun x hx => h x (by simp [hx]))]
    rfl

theorem emph_rss (l t : Str) (h : ∀ c ∈ l, ¬ c = '*') :
    removeStarStar (emphasizeLine l ++ t) = l ++ removeStarStar t := by
  unfold emphasizeLine
  cases hf : headerTokens.find? (fun h0 => isPre h0 l) with
  | none => exact rss_starfree_append l t h
  | some tok =>
    have htokl : isPre tok l = true := by
      have hp := List.find?_some hf
      simpa using hp
    have hmem : tok ∈ headerTokens := List.mem_of_find?_eq_some hf
    have htokfree : ∀ c ∈ tok, ¬ c = '*' := by
      have hall : ∀ x ∈ headerTokens, ∀ c ∈ x, ¬ c = '*' := by decide
      exact hall tok hmem
    have hdropfree : ∀ c ∈ l.drop tok.length, ¬ c = '*' :=
      fun c hc => h c (List.drop_subset _ _ hc)
    calc removeStarStar ((str r"**" ++ tok ++ str r"**" ++ l.drop tok.length) ++ t)
        = removeStarStar ('*' :: '*' :: (tok ++ ('*' :: '*' :: (l.drop tok.length ++ t)))) := by
          simp [str, List.append_assoc]
      _ = removeStarStar (tok ++ ('*' :: '*' :: (l.drop tok.length ++ t))) := rss_star_star _
      _ = tok ++ removeStarStar ('*' :: '*' :: (l.drop tok.length ++ t)) :=
          rss_starfree_append _ _ htokfree
      _ = tok ++ removeStarStar (l.drop tok.length ++ t) := by rw [rss_star_star]
      _ = tok ++ (l.drop tok.length ++ removeStarStar t) := by
          rw [rss_starfree_append _ _ hdropfree]
      _ = l ++ removeStarStar t := by
          rw [← List.append_assoc, isPre_append_drop tok l htokl]

theorem join_emph_rss (lines : List Str)
    (h : ∀ l ∈ lines, ∀ c ∈ l, ¬ c = '*') :
    removeStarStar (joinL (lines.map emphasizeLine)) = joinL lines := by
  induction lines with
  | nil => rfl
  | cons l ls ih =>
    cases ls with
    | nil =>
      show removeStarStar (emphasizeLine l ++ []) = l ++ []
      rw [emph_rss l [] (h l (by simp))]
      rfl
    | cons m ms =>
      show removeStarStar
          (emphasizeLine l ++ ('\n' :: joinL (List.map emphasizeLine (m :: ms)))) =
        l ++ ('\n' :: joinL (m :: ms))
      rw [emph_rss l _ (h l (by simp)), rss_cons '\n' _ (by decide),
        ih (fun x hx => h x (by simp [hx]))]

theorem isPre_head_mem (c : Char) (n hay : Str) (h : isPre (c :: n) hay = true) :
    c ∈ hay := by
  cases hay with
  | nil => simp [isPre] at h
  | cons d t =>
    by_cases hcd : c = d
    · simp [hcd]
    · simp [isPre, hcd] at h

theorem findIdx_mem (c : Char) (n hay : Str) (i : Nat)
    (h : findIdx (c :: n) hay = some i) : c ∈ hay := by
  induction hay generalizing i with
  | nil => simp [findIdx, isPre] at h
  | cons d t ih =>
    by_cases hp : isPre (c :: n) (d :: t) = true
    · exact isPre_head_mem c n (d :: t) hp
    · simp only [findIdx] at h
      rw [if_neg hp] at h
      rcases Option.map_eq_some'.mp h with ⟨j, hj, _⟩
      exact List.mem_cons_of_mem d (ih j hj)

theorem char_mem_joinL (c : Char) (lines : List Str) (h : c ∈ joinL lines) :
    c = '\n' ∨ ∃ l ∈ lines, c ∈ l := by
  induction lines with
  | nil => simp [joinL] at h
  | cons l ls ih =>
    rcases List.mem_append.mp h with h1 | h2
    · exact Or.inr ⟨l, by simp, h1⟩
    · cases ls with
      | nil => simp [joinTail] at h2
      | cons m ms =>
        have h2' : c ∈ ('\n' :: joinL (m :: ms)) := h2
        rcases List.mem_cons.mp h2' with h3 | h4
        · exact Or.inl h3
        · rcases ih h4 with h5 | ⟨x, hx, hcx⟩
          · exact Or.inl h5
          · exact Or.inr ⟨x, by simp [hx], hcx⟩

theorem noStar_findIdx_md (lines : List Str)
    (h : ∀ l ∈ lines, ∀ c ∈ l, ¬ c = '*') :
    findIdx (str r"**УЧАСТНИКИ:**") (joinL lines) = none := by
  cases hf : findIdx (str r"**УЧАСТНИКИ:**") (joinL lines) with
  | none => rfl
  | some i =>
    exfalso
    have hmem : '*' ∈ joinL lines := by
      have hmd : str r"**УЧАСТНИКИ:**" = '*' :: str r"*УЧАСТНИКИ:**" := rfl
      rw [hmd] at hf
      exact findIdx_mem _ _ _ _ hf
    rcases char_mem_joinL '*' lines hmem with h1 | ⟨l, hl, hc⟩
    · exact absurd h1 (by decide)
    · exact h l hl '*' hc rfl

theorem findIdx_isPre (needle hay : Str) (h : isPre needle hay = true) :
    findIdx needle hay = some 0 := by
  cases hay with
  | nil => simp [findIdx, h]
  | cons c t => simp [findIdx, h]

theorem isPre_refl (p : Str) : isPre p p = true := by
  induction p with
  | nil => rfl
  | cons a p ih => simp [isPre, ih]

theorem isPre_append_split (needle a b : Str) (h : isPre needle (a ++ b) = true) :
    isPre needle a = true ∨ ∃ n2, needle = a ++ n2 ∧ isPre n2 b = true := by
  induction a generalizing needle with
  | nil => exact Or.inr ⟨needle, rfl, h⟩
  | cons c a2 ih =>
    cases needle with
    | nil => exact Or.inl rfl
    | cons d n2 =>
      rw [List.cons_append] at h
      by_cases hdc : d = c
      · subst hdc
        have h2 : isPre n2 (a2 ++ b) = true := by simpa [isPre] using h
        rcases ih n2 h2 with h3 | ⟨m, hm, hmb⟩
        · exact Or.inl (by simp [isPre, h3])
        · exact Or.inr ⟨m, by rw [hm, List.cons_append], hmb⟩
      · exact absurd h (by simp [isPre, hdc])

theorem occursInB_head_mem (c : Char) (n hay : Str)
    (h : occursInB (c :: n) hay = true) : c ∈ hay := by
  induction hay with
  | nil => simp [occursInB, isPre] at h
  | cons d t ih =>
    simp only [occursInB, Bool.or_eq_true] at h
    rcases h with h1 | h2
    · exact isPre_head_mem c n (d :: t) h1
    · exact List.mem_cons_of_mem d (ih h2)

theorem noStar_noOccur_md (p : Str) (h : ∀ c ∈ p, ¬ c = '*') :
    occursInB (str r"**УЧАСТНИКИ:**") p = false := by
  cases ho : occursInB (str r"**УЧАСТНИКИ:**") p with
  | false => rfl
  | true =>
    exfalso
    have hmd : str r"**УЧАСТНИКИ:**" = '*' :: str r"*УЧАСТНИКИ:**" := rfl
    rw [hmd] at ho
    exact h '*' (occursInB_head_mem _ _ _ ho) rfl

theorem slice_through (needle p J target : Str)
    (hocc : occursInB needle p = false)
    (hnl : ¬ '\n' ∈ needle)
    (h : ∃ k, findIdx needle J = some k ∧ J.drop k = target) :
    ∃ k, findIdx needle (p ++ '\n' :: J) = some k ∧
      (p ++ '\n' :: J).drop k = target := by
  induction p with
  | nil =>
    obtain ⟨k, h1, h2⟩ := h
    cases needle with
    | nil => simp [occursInB, isPre] at hocc
    | cons c n2 =>
      have hc : ¬ c = '\n' := fun hh => hnl (by simp [hh])
      have hp : isPre (c :: n2) ('\n' :: J) = false := by simp [isPre, hc]
      refine ⟨k + 1, ?_, by simpa using h2⟩
      simp [findIdx, hp, h1]
  | cons a p2 ih =>
    rw [occursInB, Bool.or_eq_false_iff] at hocc
    obtain ⟨hpre1, hocc2⟩ := hocc
    obtain ⟨k, h1, h2⟩ := ih hocc2
    have hnp : isPre needle (a :: (p2 ++ '\n' :: J)) = false := by
      cases hcase : isPre needle (a :: (p2 ++ '\n' :: J)) with
      | false => rfl
      | true =>
        exfalso
        rw [show a :: (p2 ++ '\n' :: J) = (a :: p2) ++ '\n' :: J from rfl] at hcase
        rcases isPre_append_split needle (a :: p2) ('\n' :: J) hcase with hx | ⟨n2, hn2, hn2b⟩
        · rw [hx] at hpre1
          exact absurd hpre1 (by simp)
        · cases n2 with
          | nil =>
            rw [List.append_nil] at hn2
            subst hn2
            rw [isPre_refl] at hpre1
            exact absurd hpre1 (by simp)
          | cons e m =>
            have he : e = '\n' := by
              by_cases he2 : e = '\n'
              · exact he2
              · simp [isPre, he2] at hn2b
            exact hnl (by simp [hn2, he])
    refine ⟨k + 1, ?_, ?_⟩
    · rw [List.cons_append]
      simp [findIdx, hnp, h1]
    · rw [List.cons_append]
      simpa using h2

theorem slice_join_through (needle : Str) (pre tailLines : List Str) (target : Str)
    (htail : ¬ tailLines = [])
    (hocc : ∀ p ∈ pre, occursInB needle p = false)
    (hnl : ¬ '\n' ∈ needle)
    (h : ∃ k, findIdx needle (joinL tailLines) = some k ∧
      (joinL tailLines).drop k = target) :
    ∃ k, findIdx needle (joinL (pre ++ tailLines)) = some k ∧
      (joinL (pre ++ tailLines)).drop k = target := by
  induction pre with
  | nil => simpa using h
  | cons p ps ih =>
    have hne : ¬ ps ++ tailLines = [] := by
      intro hx
      exact htail (List.append_eq_nil.mp hx).2
    have hjt : joinTail (ps ++ tailLines) = '\n' :: joinL (ps ++ tailLines) := by
      cases hps : ps ++ tailLines with
      | nil => exact absurd hps hne
      | cons x xs => rfl
    have hjoin : joinL ((p :: ps) ++ tailLines) = p ++ '\n' :: joinL (ps ++ tailLines) := by
      show p ++ joinTail (ps ++ tailLines) = _
      rw [hjt]
    rw [hjoin]
    exact slice_through needle p (joinL (ps ++ tailLines)) target
      (hocc p (by simp)) hnl (ih (fun x hx => hocc x (by simp [hx])))

theorem extract_plain (pre : List Str) (l0 : Str) (rest : List Str)
    (hhead : isPre (str r"УЧАСТНИКИ:") l0 = true)
    (hstar : ∀ l ∈ pre ++ l0 :: rest, ∀ c ∈ l, ¬ c = '*')
    (hpre1 : ∀ p ∈ pre, occursInB (str r"УЧАСТНИКИ:") p = false) :
    extractSummaryText (joinL (pre ++ l0 :: rest)) = joinL (l0 :: rest) := by
  have hpre0 : isPre (str r"УЧАСТНИКИ:") (joinL (l0 :: rest)) = true := by
    show isPre (str r"УЧАСТНИКИ:") (l0 ++ joinTail rest) = true
    exact isPre_append _ _ _ hhead
  have hbase : ∃ k, findIdx (str r"УЧАСТНИКИ:") (joinL (l0 :: rest)) = some k ∧
      (joinL (l0 :: rest)).drop k = joinL (l0 :: rest) :=
    ⟨0, findIdx_isPre _ _ hpre0, rfl⟩
  obtain ⟨k, hfind, hdrop⟩ := slice_join_through _ pre (l0 :: rest) _
    (by simp) hpre1 (by decide) hbase
  unfold extractSummaryText
  rw [noStar_findIdx_md _ hstar, hfind]
  exact hdrop

theorem extract_emph (pre : List Str) (l0 : Str) (rest : List Str)
    (hhead : isPre (str r"УЧАСТНИКИ:") l0 = true)
    (hstar : ∀ l ∈ pre ++ l0 :: rest, ∀ c ∈ l, ¬ c = '*')
    (hpre2 : ∀ p ∈ pre, ∀ tok ∈ headerTokens, isPre tok p = false) :
    extractSummaryText (joinL ((pre ++ l0 :: rest).map emphasizeLine)) =
      joinL (l0 :: rest) := by
  have hpremap : pre.map emphasizeLine = pre := by
    have hid : ∀ p ∈ pre, emphasizeLine p = p := by
      intro p hp
      unfold emphasizeLine
      rw [List.find?_eq_none.mpr (fun tok htok => by simp [hpre2 p hp tok htok])]
    calc pre.map emphasizeLine = pre.map id := List.map_congr_left hid
      _ = pre := List.map_id pre
  have hfind0 : headerTokens.find? (fun h0 => isPre h0 l0) = some (str r"УЧАСТНИКИ:") := by
    simp [headerTokens, List.find?, hhead]
  have hemph0 : emphasizeLine l0 =
      str r"**" ++ str r"УЧАСТНИКИ:" ++ str r"**" ++
        l0.drop (str r"УЧАСТНИКИ:").length := by
    unfold emphasizeLine
    rw [hfind0]
  have h1 : joinL ((l0 :: rest).map emphasizeLine) =
      str r"**УЧАСТНИКИ:**" ++
        (l0.drop (str r"УЧАСТНИКИ:").length ++ joinTail (rest.map emphasizeLine)) := by
    show emphasizeLine l0 ++ joinTail (rest.map emphasizeLine) = _
    rw [hemph0]
    have hmd : str r"**УЧАСТНИКИ:**" =
        str r"**" ++ str r"УЧАСТНИКИ:" ++ str r"**" := by decide
    rw [hmd]
    simp [List.append_assoc]
  have hbase : ∃ k, findIdx (str r"**УЧАСТНИКИ:**")
      (joinL ((l0 :: rest).map emphasizeLine)) = some k ∧
      (joinL ((l0 :: rest).map emphasizeLine)).drop k =
        joinL ((l0 :: rest).map emphasizeLine) := by
    refine ⟨0, findIdx_isPre _ _ ?_, rfl⟩
    rw [h1]
    exact isPre_self_append _ _
  have hpremd : ∀ p ∈ pre, occursInB (str r"**УЧАСТНИКИ:**") p = false :=
    fun p hp => noStar_noOccur_md p (hstar p (by simp [hp]))
  obtain ⟨k, hfind, hdrop⟩ := slice_join_through _ pre ((l0 :: rest).map emphasizeLine) _
    (by simp) hpremd (by decide) hbase
  have hjoins : joinL ((pre ++ l0 :: rest).map emphasizeLine) =
      joinL (pre ++ (l0 :: rest).map emphasizeLine) := by
    rw [List.map_append, hpremap]
  unfold extractSummaryText
  rw [hjoins, hfind]
  show removeStarStar
      ((joinL (pre ++ (l0 :: rest).map emphasizeLine)).drop k) = joinL (l0 :: rest)
  rw [hdrop]
  exact join_emph_rss _ (fun l hl => hstar l (by simp [hl]))

/-- C4: corrected form.  Wrapping the recognized header tokens in
markdown emphasis yields exactly the same MeetingSummary as the plain
form whenever the content itself contains no asterisk (the emphasis
marks are the only markdown), the first УЧАСТНИКИ: header stands at the
start of a line, the preamble lines before it contain no header token or
УЧАСТНИКИ: occurrence, and the response is whitespace-trimmed; both
parses then discard the preamble and agree on every field. -/
theorem c4_markdown_equiv (pre : List Str) (l0 : Str) (rest : List Str)
    (session : SessionData)
    (hhead : isPre (str r"УЧАСТНИКИ:") l0 = true)
    (hstar : ∀ l ∈ pre ++ l0 :: rest, ∀ c ∈ l, ¬ c = '*')
    (hpre1 : ∀ p ∈ pre, occursInB (str r"УЧАСТНИКИ:") p = false)
    (hpre2 : ∀ p ∈ pre, ∀ tok ∈ headerTokens, isPre tok p = false)
    (hs1 : pyStrip (joinL (pre ++ l0 :: rest)) = joinL (pre ++ l0 :: rest))
    (hs2 : pyStrip (joinL ((pre ++ l0 :: rest).map emphasizeLine)) =
      joinL ((pre ++ l0 :: rest).map emphasizeLine)) :
    generate_meeting_summary (joinL ((pre ++ l0 :: rest).map emphasizeLine)) session =
      generate_meeting_summary (joinL (pre ++ l0 :: rest)) session := by
  unfold generate_meeting_summary
  rw [hs1, hs2, extract_plain pre l0 rest hhead hstar hpre1,
    extract_emph pre l0 rest hhead hstar hpre2]

/-- C4 counterexample: for content whose summary continuation line
itself contains markdown emphasis, the two header forms do NOT parse to
the same structured result: the markdown path strips every double-star
globally after slicing, while the plain path keeps the double-stars of
continuation lines, so summary_text differs. -/
theorem c4_counterexample :
    (generate_meeting_summary (joinL ((c4l0 :: c4badRest).map emphasizeLine))
        c4session).summary_text = str r"Итог текст жирный"
  ∧ (generate_meeting_summary (joinL (c4l0 :: c4badRest))
        c4session).summary_text = str r"Итог текст **жирный**"
  ∧ ¬ (generate_meeting_summary (joinL ((c4l0 :: c4badRest).map emphasizeLine)) c4session
      = generate_meeting_summary (joinL (c4l0 :: c4badRest)) c4session) := by
  decide

/-- C4 witness: a concrete content with a reasoning preamble and three
sections parses identically with emphasized and plain headers. -/
theorem c4_markdown_equiv_witness :
    isPre (str r"УЧАСТНИКИ:") c4l0 = true
  ∧ generate_meeting_summary (joinL ((c4pre ++ c4l0 :: c4rest).map emphasizeLine))
        c4session =
      generate_meeting_summary (joinL (c4pre ++ c4l0 :: c4rest)) c4session :=
  ⟨by decide,
   c4_markdown_equiv c4pre c4l0 c4rest c4session (by decide) (by decide) (by decide)
     (by decide) (by decide) (by decide)⟩

end ScrumSpec
